import Mathlib

/-!
Shallow embedding of the mail synchronization and reconciliation engine of
`src/app.py` (functions `strip_quoted_text`, `extract_bodies`,
`extract_attachments`, `maybe_process_read_receipt`, `parse_from_header`,
`should_skip_message`, `upsert_contact`, `smtp_send_with_security`,
`sync_account`, `send_message`).

Modelling conventions: Python strings are Lean `String`s (case folding is
ASCII, matching the inputs exercised here); decoded byte payloads are
`List Nat`; `None`-able values are `Option`; the SQLite tables are Lean
lists, with the `UNIQUE(account_id, external_message_id)` constraint of the
`messages` table modelled with SQLite's semantics (NULL keys never
conflict, and `external_message_id = NULL` in a WHERE clause matches no
row); the blocking IMAP/SMTP calls are inputs (the fetched batch, and an
oracle giving each SMTP connection strategy's outcome).
-/

namespace MailChat

/-- Whitespace characters recognised by Python `str.strip`, `str.isspace`
and the `re` class `\s` (the subset reachable in mail text). -/
def pyIsSpace (c : Char) : Bool :=
  c = ' ' || c = '\t' || c = '\n' || c = '\r' || c = '\x0b' || c = '\x0c' ||
  c = '\x1c' || c = '\x1d' || c = '\x1e' || c = '\x1f' || c = '\x85' || c = '\u00a0'

/-- Python `str.strip()` on a character list. -/
def pyStripList (cs : List Char) : List Char :=
  ((cs.dropWhile pyIsSpace).reverse.dropWhile pyIsSpace).reverse

/-- Python `str.strip()`. -/
def pyStrip (s : String) : String :=
  String.mk (pyStripList s.data)

/-- Python `str.lower()` (ASCII folding). -/
def pyLower (s : String) : String :=
  String.mk (s.data.map Char.toLower)

/-- Substring occurrence test on character lists (Python `needle in hay`). -/
def containsSub (needle : List Char) : List Char → Bool
  | [] => needle.isEmpty
  | c :: t => needle.isPrefixOf (c :: t) || containsSub needle t

/-- Python `needle in hay` for strings. -/
def strContains (hay needle : String) : Bool :=
  containsSub needle.data hay.data

/-- Python `hay.startswith(pre)`. -/
def strStarts (s pre : String) : Bool :=
  pre.data.isPrefixOf s.data

/-- Python `hay.endswith(suf)`. -/
def strEnds (s suf : String) : Bool :=
  suf.data.isSuffixOf s.data

/-- Line-break characters of Python `str.splitlines`. -/
def isLineBreak (c : Char) : Bool :=
  c = '\n' || c = '\r' || c = '\x0b' || c = '\x0c' ||
  c = '\x1c' || c = '\x1d' || c = '\x1e' || c = '\x85' || c = '\u2028' || c = '\u2029'

/-- Python `str.splitlines` on a character list: `\r\n` is one break, a
trailing break produces no final empty line, the empty string has no lines. -/
def splitlinesAux (cur : List Char) : List Char → List (List Char)
  | [] => if cur.isEmpty then [] else [cur.reverse]
  | '\r' :: '\n' :: rest => cur.reverse :: splitlinesAux [] rest
  | c :: rest =>
    if isLineBreak c then cur.reverse :: splitlinesAux [] rest
    else splitlinesAux (c :: cur) rest

/-- Python `str.splitlines`. -/
def pySplitlines (s : String) : List String :=
  (splitlinesAux [] s.data).map String.mk

/-- Python `"\n".join(lines)`. -/
def joinNL (lines : List String) : String :=
  String.intercalate "\n" lines

/-- Matcher for `^On .+wrote:$` under `re.search`/`IGNORECASE` on an
already stripped and lowered line (lines contain no newline, so `.` is
unconstrained). -/
def lineMatchOnWrote (l : String) : Bool :=
  strStarts l "on " && strEnds l "wrote:" && decide (10 ≤ l.data.length)

/-- Occurrence of `needle` in the list with at least one character after it. -/
def subFollowed (needle : List Char) : List Char → Bool
  | [] => false
  | c :: t =>
    (needle.isPrefixOf (c :: t) && decide (needle.length < (c :: t).length)) ||
    subFollowed needle t

/-- Occurrence of `needle` with at least one character before and after it. -/
def subInner (needle : List Char) : List Char → Bool
  | [] => false
  | _ :: t => subFollowed needle t

/-- Matcher for `^Am .+schrieb.+:$` (stripped, lowered line). -/
def lineMatchAmSchrieb (l : String) : Bool :=
  strStarts l "am " && strEnds l ":" &&
  subInner ("schrieb".data) ((l.data.drop 3).dropLast)

/-- Matcher for `^From:\s` (stripped, lowered line). -/
def lineMatchHeaderFrom (l : String) : Bool :=
  strStarts l "from:" &&
  (match l.data.drop 5 with
   | [] => false
   | c :: _ => pyIsSpace c)

/-- Matcher for `^Von:\s` (stripped, lowered line). -/
def lineMatchHeaderVon (l : String) : Bool :=
  strStarts l "von:" &&
  (match l.data.drop 4 with
   | [] => false
   | c :: _ => pyIsSpace c)

/-- Matcher for `^>+` (stripped line; case-free). -/
def lineMatchQuote (l : String) : Bool :=
  match l.data with
  | '>' :: _ => true
  | _ => false

/-- Length of the leading run satisfying `p`, with the remainder. -/
def countLeading (p : Char → Bool) : List Char → Nat × List Char
  | [] => (0, [])
  | c :: t =>
    if p c then
      let r := countLeading p t
      (r.1 + 1, r.2)
    else (0, c :: t)

/-- Matcher for the `-{2,}\s*Original Message\s*-{2,}` delimiter anchored at
the start of a stripped, lowered line. -/
def lineMatchOrigMsg (l : String) : Bool :=
  let r1 := countLeading (fun c => c = '-') l.data
  if r1.1 < 2 then false
  else
    let r2 := r1.2.dropWhile pyIsSpace
    if ("original message".data).isPrefixOf r2 then
      let r3 := (r2.drop 16).dropWhile pyIsSpace
      decide (2 ≤ (countLeading (fun c => c = '-') r3).1)
    else false

/-- One line of `strip_quoted_text`'s `cut_tokens` scan: the line is
stripped, then each pattern is tried with `re.search`/`IGNORECASE`. -/
def cutLineMatch (line : String) : Bool :=
  let t := pyLower (pyStrip line)
  lineMatchOnWrote t || lineMatchAmSchrieb t || lineMatchHeaderFrom t ||
  lineMatchHeaderVon t || lineMatchQuote t || lineMatchOrigMsg t

/-- Lines strictly before the first line matching a cut pattern (`lines[:i]`
with `break`); all lines when none matches. -/
def takeUntilMatch : List String → List String
  | [] => []
  | l :: rest => if cutLineMatch l then [] else l :: takeUntilMatch rest

/-- The source's `strip_quoted_text`: split into lines, truncate at the
first quote-introduction line, rejoin with newlines and strip. -/
def strip_quoted_text (text : String) : String :=
  pyStrip (joinNL (takeUntilMatch (pySplitlines text)))

/-- Helper for the `re.sub` pattern `<[^>]+>`: after a `<` and one non-`>`
character, consume up to and including the first `>`, returning the
remainder; `none` when no `>` follows. -/
def afterGt : List Char → Option (List Char)
  | [] => none
  | c :: rest => if c = '>' then some rest else afterGt rest

/-- Match the tail of `<[^>]+>` (everything after the `<`): at least one
non-`>` character followed by `>`; returns the remainder after the tag. -/
def spanToGt : List Char → Option (List Char)
  | [] => none
  | c :: rest => if c = '>' then none else afterGt rest

theorem afterGt_length : ∀ (cs r : List Char), afterGt cs = some r → r.length < cs.length := by
  intro cs
  induction cs with
  | nil => intro r h; simp [afterGt] at h
  | cons c rest ih =>
    intro r h
    by_cases hc : c = '>'
    · simp [afterGt, hc] at h
      subst h
      simp only [List.length_cons]
      omega
    · simp [afterGt, hc] at h
      have h2 := ih r h
      simp only [List.length_cons]
      omega

theorem spanToGt_length : ∀ (cs r : List Char), spanToGt cs = some r → r.length < cs.length := by
  intro cs r h
  cases cs with
  | nil => simp [spanToGt] at h
  | cons c rest =>
    by_cases hc : c = '>'
    · simp [spanToGt, hc] at h
    · simp [spanToGt, hc] at h
      have h2 := afterGt_length rest r h
      simp only [List.length_cons]
      omega

/-- Fueled scan for `re.sub(r"<[^>]+>", " ", text)`: each complete tag is
replaced by one space; an unmatched `<` is kept literally.  The fuel equals
the list length on entry and never runs out (each step consumes at least
one character). -/
def stripTagsFuel : Nat → List Char → List Char
  | 0, cs => cs
  | _ + 1, [] => []
  | fuel + 1, c :: rest =>
    if c = '<' then
      match spanToGt rest with
      | some rest2 => ' ' :: stripTagsFuel fuel rest2
      | none => '<' :: stripTagsFuel fuel rest
    else c :: stripTagsFuel fuel rest

/-- The `re.sub(r"<[^>]+>", " ", text)` substitution. -/
def stripTagsList (cs : List Char) : List Char :=
  stripTagsFuel cs.length cs

/-- One pass of `re.sub(r"\s+", " ", text)`: every maximal whitespace run
becomes a single space. -/
def collapseWsAux (prevSpace : Bool) : List Char → List Char
  | [] => []
  | c :: rest =>
    if pyIsSpace c then
      if prevSpace then collapseWsAux true rest
      else ' ' :: collapseWsAux true rest
    else c :: collapseWsAux false rest

/-- The source's HTML-to-text fallback used by `extract_bodies` (strip tags,
collapse whitespace, strip). -/
def htmlToText (html : String) : String :=
  pyStrip (String.mk (collapseWsAux false (stripTagsList html.data)))

/-- One MIME part as the engine reads it: the declared content type, the raw
`Content-Disposition` header (empty string when absent), `get_filename()`,
the charset-decoded text payload (before `.strip()`), and the raw decoded
bytes (`get_payload(decode=True) or b""`). -/
structure Part where
  ctype : String
  dispo : String
  filename : Option String
  decoded : String
  bytes : List Nat
deriving DecidableEq

/-- The source's `decode_payload`: decode (modelled as given) and strip. -/
def decode_payload (p : Part) : String :=
  pyStrip p.decoded

/-- A parsed mail object.  `parts` is the `msg.walk()` order for a
multipart message (the message object itself comes first, as in Python);
`selfPart` carries the message's own content type and payload (used for
single-part messages and for `get_content_type()`).  `fromParsed` is the
result of the standard library's `getaddresses([from_header])`, an
external collaborator. -/
structure Mail where
  multipart : Bool
  parts : List Part
  selfPart : Part
  subject : Option String
  fromHdr : Option String
  fromParsed : List (String × String)
  dateUTC : Option String
  messageId : Option String
  inReplyTo : Option String
  listId : Option String
  precedence : Option String
  autoSubmitted : Option String
  origMessageId : Option String
deriving DecidableEq

/-- Python truthiness of an optional string (`None` and `""` are falsy). -/
def optTruthy : Option String → Bool
  | none => false
  | some s => !(s == "")

/-- The multipart walk of `extract_bodies`: skip attachment-disposition
parts, take the first `text/plain` part while `text` is still empty and the
first `text/html`-family part while `html` is still falsy. -/
def bodiesLoop : String → Option String → List Part → String × Option String
  | text, html, [] => (text, html)
  | text, html, p :: rest =>
    if strContains (pyLower p.dispo) "attachment" then bodiesLoop text html rest
    else if p.ctype = "text/plain" ∧ text = "" then bodiesLoop (decode_payload p) html rest
    else if (p.ctype = "text/html" ∨ p.ctype = "application/xhtml+xml") ∧ ¬ optTruthy html then
      bodiesLoop text (some (decode_payload p)) rest
    else bodiesLoop text html rest

/-- The source's `extract_bodies`. -/
def extract_bodies (m : Mail) (strip_replies : Bool) : String × Option String :=
  let tb :=
    if m.multipart then bodiesLoop "" none m.parts
    else if m.selfPart.ctype = "text/html" ∨ m.selfPart.ctype = "application/xhtml+xml" then
      ("", some (decode_payload m.selfPart))
    else (decode_payload m.selfPart, none)
  let text0 := tb.1
  let html := tb.2
  let text1 := if text0 = "" ∧ optTruthy html then htmlToText (html.getD "") else text0
  let text2 := if strip_replies ∧ ¬ text1 = "" then strip_quoted_text text1 else text1
  (text2, html)

/-- One attachment manifest entry (`{name, content_type, size}`). -/
structure AttMeta where
  name : String
  content_type : String
  size : Nat
deriving DecidableEq

/-- The walk of `extract_attachments`: keep parts with a truthy filename or
an attachment disposition and a non-empty byte payload. -/
def attLoop : List Part → List AttMeta
  | [] => []
  | p :: rest =>
    if (p.filename = none ∨ p.filename = some "") ∧
        ¬ strContains (pyLower p.dispo) "attachment" then attLoop rest
    else if p.bytes = [] then attLoop rest
    else
      { name := match p.filename with
                | some s => if s = "" then "attachment" else s
                | none => "attachment"
        content_type := if p.ctype = "" then "application/octet-stream" else p.ctype
        size := p.bytes.length } :: attLoop rest

/-- The source's `extract_attachments` (walks only multipart messages). -/
def extract_attachments (m : Mail) : List AttMeta :=
  if m.multipart then attLoop m.parts else []

/-- The MDN test of `maybe_process_read_receipt`: content type indicates a
disposition notification or multipart report, the subject carries
read-receipt phrasing, the body carries the original-message-id marker, or
an attachment name contains `mdn`. -/
def isMdn (m : Mail) : Bool :=
  let ctype := pyLower m.selfPart.ctype
  let subject_l := pyLower (m.subject.getD "")
  let body_l := pyLower (extract_bodies m false).1
  let names := if m.multipart then m.parts.map (fun p => pyLower (p.filename.getD "")) else []
  strContains ctype "disposition-notification" || strContains ctype "multipart/report" ||
  strContains subject_l "empfangsbestätigung" || strContains subject_l "lesebestätigung" ||
  strContains subject_l "read receipt" || strContains body_l "original-message-id" ||
  names.any (fun n => strContains n "mdn")

/-- Everything after the first `:` of a line (the third component of
Python's `line.partition(":")`, empty when there is no colon). -/
def afterColon : List Char → List Char
  | [] => []
  | c :: t => if c = ':' then t else afterColon t

/-- The candidate original-message ids collected by
`maybe_process_read_receipt`: the truthy `Original-Message-ID` header
first, then the stripped value after the colon of each body line containing
the marker. -/
def receiptCandidates (m : Mail) : List String :=
  let body := (extract_bodies m false).1
  let hdr := match m.origMessageId with
             | some v => if v = "" then [] else [v]
             | none => []
  hdr ++ (pySplitlines body).foldr
    (fun line acc =>
      if strContains (pyLower line) "original-message-id" then
        let v := pyStrip (String.mk (afterColon line.data))
        if v = "" then acc else v :: acc
      else acc) []

/-- One row of the `messages` table.  `external_message_id` is nullable;
`attachments_json` is the decoded manifest (NULL until the follow-up
UPDATE); `delivery_status`, `is_read` and `read_at` carry the schema
defaults `'sent'`, `0`, NULL on insert. -/
structure Msg where
  id : Nat
  account_id : Nat
  contact_email : String
  direction : String
  subject : String
  body : String
  body_html : Option String
  sent_at : String
  external_message_id : Option String
  created_at : String
  attachments_json : Option (List AttMeta)
  in_reply_to_message_id : Option String
  delivery_status : String
  is_read : Bool
  read_at : Option String
deriving DecidableEq

/-- One row of the `contacts` table. -/
structure Contact where
  account_id : Nat
  email : String
  display_name : Option String
deriving DecidableEq

/-- One row of the `sync_state` table (`account_id` is the primary key). -/
structure SyncRow where
  account_id : Nat
  last_uid : Nat
  updated_at : String
deriving DecidableEq

/-- The persistent store: the three tables the engine touches plus the
AUTOINCREMENT counter of `messages`. -/
structure DB where
  messages : List Msg
  contacts : List Contact
  sync_state : List SyncRow
  nextMsgId : Nat
deriving DecidableEq

/-- An account row (only the fields the engine reads). -/
structure Account where
  id : Nat
  email : String
  smtp_host : String
  smtp_port : Nat
  smtp_security : Option String
deriving DecidableEq

/-- The first outbound message of the account with the given external id
(the `db_fetch_one` lookup of `maybe_process_read_receipt`); candidates are
stripped before the comparison, as in the SQL parameter `mid.strip()`. -/
def receiptTarget (db : DB) (aid : Nat) : List String → Option Nat
  | [] => none
  | mid :: rest =>
    match db.messages.find? (fun r =>
        decide (r.account_id = aid ∧ r.direction = "outbound" ∧
                r.external_message_id = some (pyStrip mid))) with
    | some r => some r.id
    | none => receiptTarget db aid rest

/-- The receipt UPDATE applied to one row: `delivery_status='read'`,
`read_at=COALESCE(read_at, now)`. -/
def readUpdateRow (now : String) (r : Msg) : Msg :=
  { r with delivery_status := "read", read_at := some (r.read_at.getD now) }

/-- The `UPDATE messages ... WHERE id=?` of `maybe_process_read_receipt`. -/
def updateRead (db : DB) (rid : Nat) (now : String) : DB :=
  { db with messages := db.messages.map (fun r => if r.id = rid then readUpdateRow now r else r) }

/-- The source's `maybe_process_read_receipt`: returns the updated store and
whether the item was consumed as a receipt (always `true` for an MDN, even
when no candidate matches an outbound message). -/
def maybe_process_read_receipt (db : DB) (aid : Nat) (m : Mail) (now : String) : DB × Bool :=
  if isMdn m then
    match receiptTarget db aid (receiptCandidates m) with
    | some rid => (updateRead db rid now, true)
    | none => (db, true)
  else (db, false)

/-- The source's `parse_from_header`.  `parsed` is the
`getaddresses([from_header])` result carried on the mail object. -/
def parse_from_header (from_header : String) (parsed : List (String × String)) :
    String × Option String :=
  match parsed with
  | (name, addr) :: _ =>
    if addr = "" then (pyStrip (pyLower from_header), none)
    else (pyStrip (pyLower addr), if pyStrip name = "" then none else some (pyStrip name))
  | [] => (pyStrip (pyLower from_header), none)

/-- The boolean settings consumed by the engine (already parsed from their
truthy string representations by `setting_bool`, an external concern). -/
structure Settings where
  filter_noreply : Bool
  filter_info_addresses : Bool
  filter_promotions : Bool
  strip_replies : Bool
deriving DecidableEq

/-- The separator choices of `[._-]?` in `NOREPLY_RE`. -/
def sepOpts : List String := ["", ".", "_", "-"]

/-- The core alternatives of `NOREPLY_RE`, fully expanded (the optional
one-character separator classes yield finitely many literals). -/
def noreplyTokens : List String :=
  (sepOpts.map (fun a => "no" ++ a ++ "reply")) ++ ["noreply"] ++
  (sepOpts.flatMap (fun a => sepOpts.map (fun b => "do" ++ a ++ "not" ++ b ++ "reply"))) ++
  ["mailer-daemon", "newsletter", "marketing"]

/-- The separator class `[._-]` of `NOREPLY_RE`. -/
def isSepChar (c : Char) : Bool :=
  c = '.' || c = '_' || c = '-'

/-- Does a core alternative match at the head of `s`, followed by a
separator or the end of the string? -/
def noreplyTokenAt (s : List Char) : Bool :=
  noreplyTokens.any (fun t =>
    t.data.isPrefixOf s &&
    (match s.drop t.data.length with
     | [] => true
     | c :: _ => isSepChar c))

/-- Scan of `NOREPLY_RE.search`: try every position whose preceding
character is a separator (or the string start). -/
def noreplyScan (boundaryOk : Bool) : List Char → Bool
  | [] => false
  | c :: rest => (boundaryOk && noreplyTokenAt (c :: rest)) || noreplyScan (isSepChar c) rest

/-- `NOREPLY_RE.search(sender)` (the input is already lowercase here, so
the `(?i)` flag is immaterial). -/
def noreplyMatches (s : String) : Bool :=
  noreplyScan true s.data

/-- The alternatives of `PROMO_SUBJECT_RE`. -/
def promoTokens : List String :=
  ["newsletter", "angebot", "sale", "rabatt", "unsubscribe", "werbung", "promo"]

/-- `PROMO_SUBJECT_RE.search(subject)` (plain substring alternatives). -/
def promoMatches (subject_l : String) : Bool :=
  promoTokens.any (fun t => strContains subject_l t)

/-- The source's `should_skip_message` (the noise filter). -/
def should_skip_message (sender subject : String) (m : Mail) (settings : Settings) : Bool :=
  let sender_l := pyStrip (pyLower sender)
  let subject_l := pyLower subject
  let list_id := pyLower (m.listId.getD "")
  let precedence := pyLower (m.precedence.getD "")
  let auto_sub := pyLower (m.autoSubmitted.getD "")
  if settings.filter_noreply ∧ noreplyMatches sender_l then true
  else if settings.filter_info_addresses ∧ strStarts sender_l "info@" then true
  else if settings.filter_promotions ∧
      (promoMatches subject_l ∨ ¬ list_id = "" ∨
       precedence = "bulk" ∨ precedence = "list" ∨ precedence = "junk" ∨
       (¬ auto_sub = "" ∧ ¬ auto_sub = "no")) then true
  else false

/-- The source's `upsert_contact`: `INSERT OR IGNORE`, then an UPDATE of
the display name when it is truthy. -/
def upsert_contact (db : DB) (aid : Nat) (email : String) (dn : Option String) : DB :=
  let db1 :=
    if db.contacts.any (fun c => decide (c.account_id = aid ∧ c.email = email)) then db
    else { db with contacts := db.contacts ++ [{ account_id := aid, email := email, display_name := dn }] }
  match dn with
  | some n =>
    if n = "" then db1
    else { db1 with contacts := db1.contacts.map (fun c =>
        if c.account_id = aid ∧ c.email = email then { c with display_name := some n } else c) }
  | none => db1

/-- Number of message rows carrying the dedup key `(aid, e)`. -/
def countKey (db : DB) (aid : Nat) (e : String) : Nat :=
  db.messages.countP (fun r => decide (r.account_id = aid ∧ r.external_message_id = some e))

/-- The `UNIQUE(account_id, external_message_id)` conflict test under
SQLite semantics: a NULL key never conflicts. -/
def hasKey (db : DB) (aid : Nat) : Option String → Bool
  | none => false
  | some e => db.messages.any (fun r => decide (r.account_id = aid ∧ r.external_message_id = some e))

/-- An INSERT into `messages`: `none` models the `sqlite3.IntegrityError`
raised on a duplicate dedup key; otherwise the row is appended with the
next AUTOINCREMENT id, which is also returned (`lastrowid`). -/
def insertMessage (db : DB) (row : Msg) : Option (DB × Nat) :=
  if hasKey db row.account_id row.external_message_id then none
  else some ({ db with
                messages := db.messages ++ [{ row with id := db.nextMsgId }],
                nextMsgId := db.nextMsgId + 1 }, db.nextMsgId)

/-- The follow-up `UPDATE messages SET attachments_json=?,
in_reply_to_message_id=?, delivery_status='sent', is_read=0 WHERE
account_id=? AND external_message_id=?` of `sync_account`.  With a NULL
external id the WHERE clause matches no row (SQL three-valued logic). -/
def updateInboundExtras (db : DB) (aid : Nat) (ext : Option String)
    (atts : List AttMeta) (irt : Option String) : DB :=
  match ext with
  | none => db
  | some e =>
    { db with messages := db.messages.map (fun r =>
        if r.account_id = aid ∧ r.external_message_id = some e then
          { r with attachments_json := some atts, in_reply_to_message_id := irt,
                   delivery_status := "sent", is_read := false }
        else r) }

/-- Handling of one fetched item inside `sync_account`'s loop, on the state
`(store, saved)`.  `none` is an unfetchable item (`status != "OK"`, missing
payload, or falsy raw bytes), skipped without effect. -/
def processItem (acc : Account) (settings : Settings) (now : String)
    (st : DB × Nat) : Option Mail → DB × Nat
  | none => st
  | some m =>
    let db := st.1
    let saved := st.2
    let rr := maybe_process_read_receipt db acc.id m now
    if rr.2 then (rr.1, saved)
    else
      let sender := (parse_from_header (m.fromHdr.getD "") m.fromParsed).1
      let sender_name := (parse_from_header (m.fromHdr.getD "") m.fromParsed).2
      if sender = "" ∨ sender = pyLower acc.email then (db, saved)
      else
        let subject := m.subject.getD ""
        if should_skip_message sender subject m settings then (db, saved)
        else
          let bh := extract_bodies m settings.strip_replies
          let atts := extract_attachments m
          if bh.1 = "" ∧ ¬ optTruthy bh.2 ∧ atts = [] then (db, saved)
          else
            let sent_at := m.dateUTC.getD now
            let db1 := upsert_contact db acc.id sender sender_name
            let row : Msg :=
              { id := 0, account_id := acc.id, contact_email := sender,
                direction := "inbound", subject := subject, body := bh.1,
                body_html := bh.2, sent_at := sent_at,
                external_message_id := m.messageId, created_at := now,
                attachments_json := none, in_reply_to_message_id := none,
                delivery_status := "sent", is_read := false, read_at := none }
            match insertMessage db1 row with
            | none => (db1, saved)
            | some (db2, _) =>
              (updateInboundExtras db2 acc.id m.messageId atts m.inReplyTo, saved + 1)

/-- The per-item loop of `sync_account`: the running maximum uid is raised
before the fetch, so unfetchable items still advance it. -/
def syncLoop (acc : Account) (settings : Settings) (now : String) :
    DB → Nat → Nat → List (Nat × Option Mail) → DB × Nat × Nat
  | db, saved, max_uid, [] => (db, saved, max_uid)
  | db, saved, max_uid, (uid, it) :: rest =>
    let mx := if max_uid < uid then uid else max_uid
    let st := processItem acc settings now (db, saved) it
    syncLoop acc settings now st.1 st.2 mx rest

/-- The persisted watermark of an account (`last_uid`, default 0). -/
def lookupWatermark (db : DB) (aid : Nat) : Nat :=
  match db.sync_state.find? (fun s => decide (s.account_id = aid)) with
  | some s => s.last_uid
  | none => 0

/-- The `INSERT ... ON CONFLICT(account_id) DO UPDATE` of `sync_state`. -/
def upsertWatermark (db : DB) (aid mx : Nat) (now : String) : DB :=
  if db.sync_state.any (fun s => decide (s.account_id = aid)) then
    { db with sync_state := db.sync_state.map (fun s =>
        if s.account_id = aid then { s with last_uid := mx, updated_at := now } else s) }
  else
    { db with sync_state := db.sync_state ++ [{ account_id := aid, last_uid := mx, updated_at := now }] }

/-- The `uids[-200:]` slice. -/
def last200 (l : List (Nat × Option Mail)) : List (Nat × Option Mail) :=
  l.drop (l.length - 200)

/-- The source's `sync_account` after login/select succeeded: `searchOk` is
the status of the UID search and `uids` its result, each uid paired with
its fetch outcome.  Returns the updated store and the saved count. -/
def sync_account (db : DB) (acc : Account) (settings : Settings) (now : String)
    (searchOk : Bool) (uids : List (Nat × Option Mail)) : DB × Nat :=
  let last_uid := lookupWatermark db acc.id
  if ¬ searchOk then (db, 0)
  else if uids = [] then (db, 0)
  else
    let r := syncLoop acc settings now db 0 last_uid (last200 uids)
    (upsertWatermark r.1 acc.id r.2.2 now, r.2.1)

/-- One SMTP connection strategy (`send_ssl`, `send_starttls`, `send_plain`). -/
inductive Strategy where
  | ssl : Strategy
  | starttls : Strategy
  | plain : Strategy
deriving DecidableEq

/-- Outcome of attempting one strategy (a fresh connection each time).
`transportErr` covers the caught classes `ssl.SSLError`,
`smtplib.SMTPException` and `OSError`; `otherErr` is any other exception. -/
inductive SendOutcome where
  | ok : SendOutcome
  | transportErr : String → SendOutcome
  | otherErr : String → SendOutcome
deriving DecidableEq

/-- Result of `smtp_send_with_security`: success, the aggregated
`ValueError` raised when every strategy of the `auto` list failed (carrying
the last attempt's error), or an exception propagated unhandled. -/
inductive SendResult where
  | success : SendResult
  | aggregatedError : Option String → SendResult
  | propagatedTransport : String → SendResult
  | propagatedOther : String → SendResult
deriving DecidableEq

/-- `(account.get("smtp_security") or "auto").lower()`. -/
def smtpSecurityNorm (acc : Account) : String :=
  pyLower (match acc.smtp_security with
           | some s => if s = "" then "auto" else s
           | none => "auto")

/-- A forced single-strategy run: any failure propagates directly. -/
def runForced (attempt : Strategy → SendOutcome) (s : Strategy) : List Strategy × SendResult :=
  ⟨[s], match attempt s with
        | .ok => .success
        | .transportErr e => .propagatedTransport e
        | .otherErr e => .propagatedOther e⟩

/-- The `auto` fallback loop: try each strategy in order, return on the
first success, record and skip past transport-class errors, re-raise
anything else, and raise the aggregated error when the list is exhausted.
The first component is the list of strategies actually attempted. -/
def tryMethods (attempt : Strategy → SendOutcome) :
    List Strategy → Option String → List Strategy × SendResult
  | [], last => ([], .aggregatedError last)
  | s :: rest, last =>
    match attempt s with
    | .ok => ([s], .success)
    | .transportErr e =>
      let r := tryMethods attempt rest (some e)
      (s :: r.1, r.2)
    | .otherErr e => ([s], .propagatedOther e)

/-- The strategy order chosen for `auto` from the configured port. -/
def autoOrder (port : Nat) : List Strategy :=
  if port = 465 then [.ssl, .starttls, .plain] else [.starttls, .ssl, .plain]

/-- The source's `smtp_send_with_security`, with each strategy's network
outcome supplied by the `attempt` oracle. -/
def smtp_send_with_security (acc : Account) (attempt : Strategy → SendOutcome) :
    List Strategy × SendResult :=
  let security := smtpSecurityNorm acc
  if security = "ssl" then runForced attempt .ssl
  else if security = "starttls" then runForced attempt .starttls
  else if security = "plain" then runForced attempt .plain
  else tryMethods attempt (autoOrder acc.smtp_port) none

/-- One attachment of a `send_message` request, with its base64 payload
already decoded to bytes (the decode itself is standard-library glue). -/
structure AttIn where
  name : Option String
  content_type : Option String
  dataBytes : List Nat
deriving DecidableEq

/-- Python `s.split("/", 1)` (one or two components). -/
def splitSlashOnceAux (acc : List Char) : List Char → List String
  | [] => [String.mk acc.reverse]
  | c :: t =>
    if c = '/' then [String.mk acc.reverse, String.mk t]
    else splitSlashOnceAux (c :: acc) t

/-- Python `s.split("/", 1)`. -/
def splitSlashOnce (s : String) : List String :=
  splitSlashOnceAux [] s.data

/-- The attachment-manifest loop of `send_message`: skip empty payloads,
split the declared content type into maintype/subtype (falling back to
`application`/`octet-stream` when there is no slash), default the name. -/
def safeAttLoop : List AttIn → List AttMeta
  | [] => []
  | a :: rest =>
    if a.dataBytes = [] then safeAttLoop rest
    else
      let ct := match a.content_type with
                | some s => if s = "" then "application/octet-stream" else s
                | none => "application/octet-stream"
      let mt := match splitSlashOnce ct with
                | [x, y] => (x, y)
                | _ => ("application", "octet-stream")
      let fname := match a.name with
                   | some s => if s = "" then "attachment" else s
                   | none => "attachment"
      { name := fname, content_type := mt.1 ++ "/" ++ mt.2,
        size := a.dataBytes.length } :: safeAttLoop rest

/-- The record returned to the caller on a successful send. -/
structure SentRecord where
  id : Nat
  direction : String
  body : String
  body_html : Option String
  sent_at : String
  delivery_status : String
  attachments : List AttMeta
  external_message_id : Option String
deriving DecidableEq

/-- The source's `send_message`, after the account lookup succeeded:
compose (reply headers, HTML fallback, attachments), transmit through
`smtp_send_with_security`, and only on success upsert the contact, insert
the outbound row and apply the follow-up UPDATE by row id.  A transmit
failure propagates with the store untouched.  The composed `EmailMessage`
never receives a `Message-ID` header, so the stored external id is NULL —
which never violates the uniqueness constraint, hence the insert cannot
raise. -/
def send_message (db : DB) (acc : Account) (to_email0 body : String) (is_html : Bool)
    (attachments : List AttIn) (reply_to : Option String) (now : String)
    (attempt : Strategy → SendOutcome) : DB × Except SendResult SentRecord :=
  let to_email := pyStrip (pyLower to_email0)
  let safeAtts := safeAttLoop attachments
  let sres := smtp_send_with_security acc attempt
  match sres.2 with
  | .success =>
    let db1 := upsert_contact db acc.id to_email none
    let storedBody := if is_html then pyStrip (String.mk (stripTagsList body.data)) else body
    let row : Msg :=
      { id := db1.nextMsgId, account_id := acc.id, contact_email := to_email,
        direction := "outbound", subject := "Chat-Nachricht", body := storedBody,
        body_html := if is_html then some body else none, sent_at := now,
        external_message_id := none, created_at := now, attachments_json := none,
        in_reply_to_message_id := none, delivery_status := "sent", is_read := false,
        read_at := none }
    let mid := db1.nextMsgId
    let db2 := { db1 with messages := db1.messages ++ [row], nextMsgId := mid + 1 }
    let db3 := { db2 with messages := db2.messages.map (fun r =>
        if r.id = mid then
          { r with attachments_json := some safeAtts, in_reply_to_message_id := reply_to,
                   delivery_status := "sent", is_read := true }
        else r) }
    (db3, .ok { id := mid, direction := "outbound", body := storedBody,
                body_html := if is_html then some body else none, sent_at := now,
                delivery_status := "sent", attachments := safeAtts,
                external_message_id := none })
  | r => (db, .error r)

/-! Helper lemmas: which tables each operation leaves untouched. -/

theorem upsert_contact_messages (db : DB) (aid : Nat) (email : String) (dn : Option String) :
    (upsert_contact db aid email dn).messages = db.messages := by
  unfold upsert_contact
  cases dn with
  | none => dsimp only; split <;> rfl
  | some n => dsimp only; split <;> split <;> rfl

theorem upsert_contact_sync_state (db : DB) (aid : Nat) (email : String) (dn : Option String) :
    (upsert_contact db aid email dn).sync_state = db.sync_state := by
  unfold upsert_contact
  cases dn with
  | none => dsimp only; split <;> rfl
  | some n => dsimp only; split <;> split <;> rfl

theorem maybe_receipt_sync_state (db : DB) (aid : Nat) (m : Mail) (now : String) :
    (maybe_process_read_receipt db aid m now).1.sync_state = db.sync_state := by
  unfold maybe_process_read_receipt
  split
  · split <;> rfl
  · rfl

theorem updateInboundExtras_sync_state (db : DB) (aid : Nat) (ext : Option String)
    (atts : List AttMeta) (irt : Option String) :
    (updateInboundExtras db aid ext atts irt).sync_state = db.sync_state := by
  unfold updateInboundExtras
  cases ext <;> rfl

theorem insertMessage_sync_state (db : DB) (row : Msg) (db2 : DB) (mid : Nat)
    (h : insertMessage db row = some (db2, mid)) : db2.sync_state = db.sync_state := by
  unfold insertMessage at h
  split at h
  · exact absurd h (by simp)
  · simp only [Option.some.injEq, Prod.mk.injEq] at h
    rw [← h.1]

theorem processItem_sync_state (acc : Account) (settings : Settings) (now : String)
    (db : DB) (saved : Nat) (it : Option Mail) :
    (processItem acc settings now (db, saved) it).1.sync_state = db.sync_state := by
  cases it with
  | none => rfl
  | some m =>
    unfold processItem
    dsimp only
    split
    · exact maybe_receipt_sync_state db acc.id m now
    · split
      · rfl
      · split
        · rfl
        · split
          · rfl
          · split
            · exact upsert_contact_sync_state db acc.id _ _
            · rename_i x db2 mid heq
              show (updateInboundExtras db2 acc.id m.messageId _ _).sync_state = db.sync_state
              rw [updateInboundExtras_sync_state]
              rw [insertMessage_sync_state _ _ _ _ heq]
              exact upsert_contact_sync_state db acc.id _ _

theorem syncLoop_sync_state (acc : Account) (settings : Settings) (now : String) :
    ∀ (l : List (Nat × Option Mail)) (db : DB) (saved mx : Nat),
    (syncLoop acc settings now db saved mx l).1.sync_state = db.sync_state := by
  intro l
  induction l with
  | nil => intro db saved mx; rfl
  | cons p rest ih =>
    intro db saved mx
    obtain ⟨uid, it⟩ := p
    show (syncLoop acc settings now
        (processItem acc settings now (db, saved) it).1
        (processItem acc settings now (db, saved) it).2 _ rest).1.sync_state = db.sync_state
    rw [ih]
    exact processItem_sync_state acc settings now db saved it

/-! Helper lemmas: the watermark store. -/

theorem find_after_upsert : ∀ (l : List SyncRow) (aid mx : Nat) (now : String),
    (if l.any (fun s => decide (s.account_id = aid)) then
        l.map (fun s => if s.account_id = aid then { s with last_uid := mx, updated_at := now } else s)
      else l ++ [{ account_id := aid, last_uid := mx, updated_at := now }]).find?
      (fun s => decide (s.account_id = aid))
    = some { account_id := aid, last_uid := mx, updated_at := now } := by
  intro l aid mx now
  induction l with
  | nil => simp [List.find?]
  | cons s rest ih =>
    by_cases hs : s.account_id = aid
    · simp [List.any_cons, hs, List.find?]
    · have hp : (fun r => decide (r.account_id = aid)) s = false := by simp [hs]
      rw [show (s :: rest).any (fun r => decide (r.account_id = aid))
            = rest.any (fun r => decide (r.account_id = aid)) from by simp [hs]]
      by_cases hr : rest.any (fun r => decide (r.account_id = aid)) = true
      · rw [if_pos hr]
        rw [if_pos hr] at ih
        simp only [List.map_cons, if_neg hs]
        rw [List.find?]
        simp only [hp]
        exact ih
      · rw [if_neg hr]
        rw [if_neg hr] at ih
        simp only [List.cons_append]
        rw [List.find?]
        simp only [hp]
        exact ih

theorem lookupWatermark_upsert (db : DB) (aid mx : Nat) (now : String) :
    lookupWatermark (upsertWatermark db aid mx now) aid = mx := by
  have h := find_after_upsert db.sync_state aid mx now
  unfold lookupWatermark upsertWatermark
  by_cases hc : db.sync_state.any (fun s => decide (s.account_id = aid)) = true
  · rw [if_pos hc]
    rw [if_pos hc] at h
    dsimp only
    rw [h]
  · rw [if_neg hc]
    rw [if_neg hc] at h
    dsimp only
    rw [h]

theorem syncLoop_max (acc : Account) (settings : Settings) (now : String) :
    ∀ (l : List (Nat × Option Mail)) (db : DB) (saved mx : Nat),
    (syncLoop acc settings now db saved mx l).2.2 = l.foldl (fun a p => max a p.1) mx := by
  intro l
  induction l with
  | nil => intro db saved mx; rfl
  | cons p rest ih =>
    intro db saved mx
    obtain ⟨uid, it⟩ := p
    show (syncLoop acc settings now _ _ (if mx < uid then uid else mx) rest).2.2 = _
    rw [ih]
    have hmax : (if mx < uid then uid else mx) = max mx uid := by
      rw [Nat.max_def]; split <;> split <;> omega
    rw [hmax]
    rfl

/-- The maximum uid of a batch (`M` in the specification). -/
def batchMax (l : List (Nat × Option Mail)) : Nat :=
  l.foldl (fun a p => max a p.1) 0

theorem foldl_max_init : ∀ (l : List (Nat × Option Mail)) (mx : Nat),
    l.foldl (fun a p => max a p.1) mx = max mx (batchMax l) := by
  intro l
  induction l with
  | nil => intro mx; simp [batchMax]
  | cons p rest ih =>
    intro mx
    have h0 : batchMax (p :: rest) = max p.1 (batchMax rest) := by
      show List.foldl _ (max 0 p.1) rest = _
      rw [ih (max 0 p.1)]
      omega
    show List.foldl _ (max mx p.1) rest = _
    rw [ih (max mx p.1), h0]
    omega

/-! Concrete fixtures used by the witnesses and counterexamples below. -/

/-- A minimal single-part mail with every header absent. -/
def noMail : Mail :=
  { multipart := false
    parts := []
    selfPart := { ctype := "text/plain", dispo := "", filename := none, decoded := "", bytes := [] }
    subject := none
    fromHdr := none
    fromParsed := []
    dateUTC := none
    messageId := none
    inReplyTo := none
    listId := none
    precedence := none
    autoSubmitted := none
    origMessageId := none }

/-- An account used by the examples. -/
def acc1 : Account :=
  { id := 1, email := "me@example.com", smtp_host := "smtp.example.com",
    smtp_port := 465, smtp_security := some "auto" }

/-- The default settings (every filter on, reply stripping on). -/
def allOn : Settings :=
  { filter_noreply := true, filter_info_addresses := true,
    filter_promotions := true, strip_replies := true }

/-- An empty store. -/
def db0 : DB := { messages := [], contacts := [], sync_state := [], nextMsgId := 1 }

/-- An ordinary inbound mail from a correspondent, with an external id. -/
def normMail : Mail :=
  { noMail with
    selfPart := { ctype := "text/plain", dispo := "", filename := none, decoded := "Hello there", bytes := [1] }
    subject := some "Hallo"
    fromHdr := some "Bob <bob@example.com>"
    fromParsed := [("Bob", "bob@example.com")]
    messageId := some "<m1@x>" }

/-- A persisted outbound message awaiting its read receipt. -/
def outRow : Msg :=
  { id := 5
    account_id := 1
    contact_email := "bob@example.com"
    direction := "outbound"
    subject := "Chat-Nachricht"
    body := "hi"
    body_html := none
    sent_at := "t"
    external_message_id := some "<abc@x>"
    created_at := "t"
    attachments_json := some []
    in_reply_to_message_id := none
    delivery_status := "sent"
    is_read := true
    read_at := none }

/-- A store holding only `outRow`. -/
def dbOut : DB := { messages := [outRow], contacts := [], sync_state := [], nextMsgId := 6 }

/-- A read receipt referencing `outRow` through its header. -/
def mdnMail : Mail :=
  { noMail with subject := some "Read Receipt", origMessageId := some "<abc@x>" }

/-! Claim C1: monotone watermark persistence. -/

/-- Claim C1: a completed sync persists the watermark `max(W, M)` where `W`
is the watermark read at the start and `M` the maximum uid of the fetched
batch; hence the watermark never decreases, and a sync with zero unseen
items leaves the store untouched and returns 0 without error. -/
theorem sync_account_watermark (db : DB) (acc : Account) (settings : Settings)
    (now : String) (searchOk : Bool) (uids : List (Nat × Option Mail)) :
    (searchOk = true → uids ≠ [] →
        lookupWatermark (sync_account db acc settings now searchOk uids).1 acc.id
          = max (lookupWatermark db acc.id) (batchMax (last200 uids)))
  ∧ lookupWatermark db acc.id
      ≤ lookupWatermark (sync_account db acc settings now searchOk uids).1 acc.id
  ∧ ((searchOk = false ∨ uids = []) → sync_account db acc settings now searchOk uids = (db, 0)) := by
  have hmain : searchOk = true → uids ≠ [] →
      lookupWatermark (sync_account db acc settings now searchOk uids).1 acc.id
        = max (lookupWatermark db acc.id) (batchMax (last200 uids)) := by
    intro hok hne
    subst hok
    unfold sync_account
    dsimp only
    rw [if_neg (show ¬ ¬ ((true : Bool) = true) from fun h => h rfl)]
    rw [if_neg hne]
    dsimp only
    rw [lookupWatermark_upsert]
    rw [syncLoop_max]
    rw [foldl_max_init]
  have hdeg : (searchOk = false ∨ uids = []) → sync_account db acc settings now searchOk uids = (db, 0) := by
    intro h
    rcases h with h | h
    · unfold sync_account
      rw [h]
      simp
    · unfold sync_account
      rw [h]
      simp
  refine ⟨hmain, ?_, hdeg⟩
  by_cases hok : searchOk = true
  · by_cases hne : uids = []
    · rw [hdeg (Or.inr hne)]
    · rw [hmain hok hne]
      exact Nat.le_max_left _ _
  · rw [hdeg (Or.inl (by revert hok; cases searchOk <;> simp))]

/-- Witness for C1 at a concrete two-item batch (watermark 0 becomes 5). -/
theorem sync_account_watermark_witness :
    lookupWatermark (sync_account db0 acc1 allOn "t" true [(3, none), (5, none)]).1 acc1.id = 5 := by
  have h := (sync_account_watermark db0 acc1 allOn "t" true [(3, none), (5, none)]).1
      rfl (by decide)
  rw [h]
  rfl

/-! Claim C3: receipt precedence. -/

theorem maybe_receipt_message_ids (db : DB) (aid : Nat) (m : Mail) (now : String) :
    (maybe_process_read_receipt db aid m now).1.messages.map (fun r => r.id)
      = db.messages.map (fun r => r.id) := by
  unfold maybe_process_read_receipt
  split
  · split
    · rename_i rid heq
      show (updateRead db rid now).messages.map _ = _
      unfold updateRead
      dsimp only
      rw [List.map_map]
      apply List.map_congr_left
      intro r hr
      show (if r.id = rid then readUpdateRow now r else r).id = r.id
      split <;> rfl
    · rfl
  · rfl

/-- Claim C3: an inbound item satisfying receipt detection is consumed by
receipt processing — no message row is created for it (the stored rows keep
exactly the same ids) and the saved count is unchanged, regardless of the
noise filters, the extraction outcome, or whether any outbound message
matches. -/
theorem receipt_precedence (db : DB) (acc : Account) (settings : Settings)
    (now : String) (m : Mail) (saved : Nat) (h : isMdn m = true) :
    (processItem acc settings now (db, saved) (some m)).1.messages.map (fun r => r.id)
      = db.messages.map (fun r => r.id)
  ∧ (processItem acc settings now (db, saved) (some m)).2 = saved := by
  have hr : (maybe_process_read_receipt db acc.id m now).2 = true := by
    unfold maybe_process_read_receipt
    rw [if_pos h]
    split <;> rfl
  unfold processItem
  dsimp only
  rw [if_pos hr]
  exact ⟨maybe_receipt_message_ids db acc.id m now, rfl⟩

/-- Witness for C3: a read receipt with no matching effect on row ids and a
zero saved count, processed against the store holding `outRow`. -/
theorem receipt_precedence_witness :
    (processItem acc1 allOn "now1" (dbOut, 0) (some mdnMail)).1.messages.map (fun r => r.id) = [5]
  ∧ (processItem acc1 allOn "now1" (dbOut, 0) (some mdnMail)).2 = 0 := by
  have h := receipt_precedence dbOut acc1 allOn "now1" mdnMail 0 (by decide)
  exact ⟨h.1.trans (by decide), h.2⟩

/-! Claim C4: monotone read-status transition. -/

/-- Claim C4: processing a receipt changes stored messages only by setting
`delivery_status` to `read` with a first-write-wins read timestamp: a row
already `read` stays `read`, an already-set `read_at` is never changed, the
row matched by the candidate lookup becomes `read` with
`read_at = COALESCE(read_at, now)`, and every row is either untouched or in
that updated state. -/
theorem receipt_read_monotone (db : DB) (aid : Nat) (m : Mail) (now : String) :
    ((maybe_process_read_receipt db aid m now).1.messages.length = db.messages.length)
  ∧ (∀ (i : Nat) (r0 r1 : Msg), db.messages[i]? = some r0 →
        ((maybe_process_read_receipt db aid m now).1.messages)[i]? = some r1 →
      (r0.delivery_status = "read" → r1.delivery_status = "read")
    ∧ (∀ t, r0.read_at = some t → r1.read_at = some t)
    ∧ (receiptTarget db aid (receiptCandidates m) = some r0.id → isMdn m = true →
        r1.delivery_status = "read" ∧ r1.read_at = some (r0.read_at.getD now))
    ∧ (r1 = r0 ∨ (r1.delivery_status = "read" ∧ r1.read_at = some (r0.read_at.getD now)))) := by
  unfold maybe_process_read_receipt
  split
  · rename_i hmdn
    split
    · rename_i rid heq
      unfold updateRead
      dsimp only
      constructor
      · exact List.length_map _ _
      · intro i r0 r1 hr0 hr1
        rw [List.getElem?_map, hr0, Option.map_some'] at hr1
        have hr1e : r1 = if r0.id = rid then readUpdateRow now r0 else r0 :=
          (Option.some.inj hr1).symm
        refine ⟨?_, ?_, ?_, ?_⟩
        · intro hst
          rw [hr1e]
          split
          · rfl
          · exact hst
        · intro t ht
          rw [hr1e]
          split
          · show some (r0.read_at.getD now) = some t
            rw [ht]
            rfl
          · exact ht
        · intro htgt _
          have hid : r0.id = rid := Option.some.inj (heq.symm.trans htgt) |>.symm
          rw [hr1e, if_pos hid]
          exact ⟨rfl, rfl⟩
        · rw [hr1e]
          split
          · exact Or.inr ⟨rfl, rfl⟩
          · exact Or.inl rfl
    · rename_i heq
      refine ⟨rfl, ?_⟩
      intro i r0 r1 hr0 hr1
      have hr1e : r1 = r0 := Option.some.inj (hr0.symm.trans hr1) |>.symm
      subst hr1e
      refine ⟨fun h => h, fun t ht => ht, ?_, Or.inl rfl⟩
      intro htgt _
      rw [heq] at htgt
      exact absurd htgt (by simp)
  · rename_i hmdn
    refine ⟨rfl, ?_⟩
    intro i r0 r1 hr0 hr1
    have hr1e : r1 = r0 := Option.some.inj (hr0.symm.trans hr1) |>.symm
    subst hr1e
    refine ⟨fun h => h, fun t ht => ht, ?_, Or.inl rfl⟩
    intro _ hm
    exact absurd hm hmdn

/-- Witness for C4: the receipt for `outRow` sets its status to `read` with
the processing instant as read timestamp. -/
theorem receipt_read_monotone_witness :
    ∃ r1, ((maybe_process_read_receipt dbOut 1 mdnMail "now1").1.messages)[0]? = some r1
  ∧ r1.delivery_status = "read" ∧ r1.read_at = some "now1" := by
  have h := ((receipt_read_monotone dbOut 1 mdnMail "now1").2 0 outRow
      (readUpdateRow "now1" outRow) (by decide) (by decide)).2.2.1 (by decide) (by decide)
  exact ⟨readUpdateRow "now1" outRow, by decide, h.1, h.2⟩

/-! Claim C2: deduplication by the `(account, external_message_id)` key. -/

/-- The dedup-key predicate of `countKey` and `hasKey`. -/
def keyPred (aid : Nat) (e : String) : Msg → Bool :=
  fun r => decide (r.account_id = aid ∧ r.external_message_id = some e)

theorem countP_map_keyinv (f : Msg → Msg)
    (hf : ∀ r, (f r).account_id = r.account_id ∧ (f r).external_message_id = r.external_message_id)
    (l : List Msg) (aid : Nat) (e : String) :
    (l.map f).countP (keyPred aid e) = l.countP (keyPred aid e) := by
  rw [List.countP_map]
  apply List.countP_congr
  intro r _
  unfold keyPred
  simp only [Function.comp_apply, decide_eq_true_eq]
  rw [(hf r).1, (hf r).2]

theorem countKey_updateRead (db : DB) (rid : Nat) (now : String) (aid : Nat) (e : String) :
    countKey (updateRead db rid now) aid e = countKey db aid e := by
  unfold countKey updateRead
  dsimp only
  exact countP_map_keyinv _ (fun r => by split <;> exact ⟨rfl, rfl⟩) _ aid e

theorem countKey_maybe_receipt (db : DB) (aid0 : Nat) (m : Mail) (now : String)
    (aid : Nat) (e : String) :
    countKey (maybe_process_read_receipt db aid0 m now).1 aid e = countKey db aid e := by
  unfold maybe_process_read_receipt
  split
  · split
    · exact countKey_updateRead db _ now aid e
    · rfl
  · rfl

theorem countKey_updateInboundExtras (db : DB) (aid0 : Nat) (ext : Option String)
    (atts : List AttMeta) (irt : Option String) (aid : Nat) (e : String) :
    countKey (updateInboundExtras db aid0 ext atts irt) aid e = countKey db aid e := by
  unfold updateInboundExtras
  cases ext with
  | none => rfl
  | some v =>
    unfold countKey
    dsimp only
    exact countP_map_keyinv _ (fun r => by split <;> exact ⟨rfl, rfl⟩) _ aid e

theorem countKey_upsert_contact (db : DB) (aid0 : Nat) (email : String) (dn : Option String)
    (aid : Nat) (e : String) :
    countKey (upsert_contact db aid0 email dn) aid e = countKey db aid e := by
  unfold countKey
  rw [upsert_contact_messages]

theorem countKey_eq_zero_of_not_hasKey (db : DB) (aid : Nat) (e : String)
    (h : hasKey db aid (some e) = false) : countKey db aid e = 0 := by
  unfold hasKey at h
  unfold countKey
  rw [List.countP_eq_zero]
  rw [List.any_eq_false] at h
  exact h

theorem hasKey_of_countKey_pos (db : DB) (aid : Nat) (e : String)
    (h : 0 < countKey db aid e) : hasKey db aid (some e) = true := by
  unfold countKey at h
  unfold hasKey
  rw [List.countP_pos_iff] at h
  rw [List.any_eq_true]
  exact h

theorem insertMessage_countKey (db : DB) (row : Msg) (db2 : DB) (mid : Nat)
    (aid : Nat) (e : String) (h : insertMessage db row = some (db2, mid)) :
    (row.account_id = aid ∧ row.external_message_id = some e →
        countKey db aid e = 0 ∧ countKey db2 aid e = 1)
  ∧ (¬ (row.account_id = aid ∧ row.external_message_id = some e) →
        countKey db2 aid e = countKey db aid e) := by
  unfold insertMessage at h
  split at h
  · exact absurd h (by simp)
  · rename_i hk
    simp only [Option.some.injEq, Prod.mk.injEq] at h
    have hdb2 : db2.messages = db.messages ++ [{ row with id := db.nextMsgId }] := by
      rw [← h.1]
    have happ : countKey db2 aid e
        = countKey db aid e + List.countP (keyPred aid e) [{ row with id := db.nextMsgId }] := by
      unfold countKey
      rw [hdb2, List.countP_append]
      rfl
    constructor
    · intro hkey
      have hzero : countKey db aid e = 0 := by
        apply countKey_eq_zero_of_not_hasKey
        have : hasKey db row.account_id row.external_message_id = false := by
          revert hk
          cases hval : hasKey db row.account_id row.external_message_id <;> simp
        rw [hkey.2, hkey.1] at this
        exact this
      refine ⟨hzero, ?_⟩
      rw [happ, hzero]
      have hpred : keyPred aid e { row with id := db.nextMsgId } = true := by
        unfold keyPred
        simp only [decide_eq_true_eq]
        exact ⟨hkey.1, hkey.2⟩
      simp [List.countP_cons, hpred]
    · intro hkey
      rw [happ]
      have hpred : keyPred aid e { row with id := db.nextMsgId } = false := by
        unfold keyPred
        simp only [decide_eq_false_iff_not]
        simpa using hkey
      simp [List.countP_cons, hpred]

theorem processItem_countKey (acc : Account) (settings : Settings) (now : String)
    (db : DB) (saved : Nat) (it : Option Mail) (aid : Nat) (e : String) :
    countKey db aid e ≤ countKey (processItem acc settings now (db, saved) it).1 aid e
  ∧ countKey (processItem acc settings now (db, saved) it).1 aid e ≤ max (countKey db aid e) 1 := by
  cases it with
  | none => exact ⟨Nat.le_refl _, Nat.le_max_left _ _⟩
  | some m =>
    unfold processItem
    dsimp only
    split
    · rw [countKey_maybe_receipt]
      exact ⟨Nat.le_refl _, Nat.le_max_left _ _⟩
    · split
      · exact ⟨Nat.le_refl _, Nat.le_max_left _ _⟩
      · split
        · exact ⟨Nat.le_refl _, Nat.le_max_left _ _⟩
        · split
          · exact ⟨Nat.le_refl _, Nat.le_max_left _ _⟩
          · split
            · rw [countKey_upsert_contact]
              exact ⟨Nat.le_refl _, Nat.le_max_left _ _⟩
            · rename_i x db2 mid heq
              show countKey db aid e ≤ countKey (updateInboundExtras db2 acc.id m.messageId _ _) aid e
                 ∧ countKey (updateInboundExtras db2 acc.id m.messageId _ _) aid e
                     ≤ max (countKey db aid e) 1
              rw [countKey_updateInboundExtras]
              have hcnt := insertMessage_countKey _ _ _ _ aid e heq
              rw [countKey_upsert_contact db acc.id _ _ aid e] at hcnt
              by_cases hkey : (acc.id = aid ∧ m.messageId = some e)
              · have h2 := hcnt.1 hkey
                rw [h2.1, h2.2]
                omega
              · have h2 := hcnt.2 hkey
                rw [h2]
                exact ⟨Nat.le_refl _, Nat.le_max_left _ _⟩

theorem processItem_dup_not_saved (acc : Account) (settings : Settings) (now : String)
    (db : DB) (saved : Nat) (m : Mail) (e : String)
    (hm : m.messageId = some e) (hdup : 1 ≤ countKey db acc.id e) :
    (processItem acc settings now (db, saved) (some m)).2 = saved := by
  unfold processItem
  dsimp only
  split
  · rfl
  · split
    · rfl
    · split
      · rfl
      · split
        · rfl
        · split
          · rfl
          · rename_i x db2 mid heq
            exfalso
            have hhk : hasKey (upsert_contact db acc.id
                  (parse_from_header (m.fromHdr.getD "") m.fromParsed).1
                  (parse_from_header (m.fromHdr.getD "") m.fromParsed).2) acc.id (some e) = true := by
              apply hasKey_of_countKey_pos
              rw [countKey_upsert_contact]
              omega
            unfold insertMessage at heq
            rw [hm] at heq
            rw [if_pos hhk] at heq
            exact absurd heq (by simp)

theorem syncLoop_countKey (acc : Account) (settings : Settings) (now : String) :
    ∀ (l : List (Nat × Option Mail)) (db : DB) (saved mx : Nat) (aid : Nat) (e : String),
    countKey db aid e ≤ countKey (syncLoop acc settings now db saved mx l).1 aid e
  ∧ countKey (syncLoop acc settings now db saved mx l).1 aid e ≤ max (countKey db aid e) 1 := by
  intro l
  induction l with
  | nil => intro db saved mx aid e; exact ⟨Nat.le_refl _, Nat.le_max_left _ _⟩
  | cons p rest ih =>
    intro db saved mx aid e
    obtain ⟨uid, it⟩ := p
    have hstep := processItem_countKey acc settings now db saved it aid e
    have htail := ih (processItem acc settings now (db, saved) it).1
        (processItem acc settings now (db, saved) it).2 (if mx < uid then uid else mx) aid e
    show countKey db aid e ≤ countKey (syncLoop acc settings now
          (processItem acc settings now (db, saved) it).1
          (processItem acc settings now (db, saved) it).2 _ rest).1 aid e
       ∧ countKey (syncLoop acc settings now
          (processItem acc settings now (db, saved) it).1
          (processItem acc settings now (db, saved) it).2 _ rest).1 aid e
           ≤ max (countKey db aid e) 1
    constructor
    · calc countKey db aid e ≤ _ := hstep.1
        _ ≤ _ := by
          have h2 := (ih (processItem acc settings now (db, saved) it).1
            (processItem acc settings now (db, saved) it).2 (if mx < uid then uid else mx) aid e).1
          convert h2 using 3
    · have h1 := htail.2
      have h2 := hstep.2
      have h3 : countKey (syncLoop acc settings now (processItem acc settings now (db, saved) it).1
          (processItem acc settings now (db, saved) it).2 (if mx < uid then uid else mx) rest).1 aid e
          ≤ max (countKey (processItem acc settings now (db, saved) it).1 aid e) 1 := h1
      omega

theorem upsertWatermark_messages (db : DB) (aid mx : Nat) (now : String) :
    (upsertWatermark db aid mx now).messages = db.messages := by
  unfold upsertWatermark
  split <;> rfl

theorem countKey_upsertWatermark (db : DB) (aid0 mx : Nat) (now : String)
    (aid : Nat) (e : String) :
    countKey (upsertWatermark db aid0 mx now) aid e = countKey db aid e := by
  unfold countKey
  rw [upsertWatermark_messages]

/-- Claim C2: the dedup key `(account, external_message_id)` stays unique
across syncs: the number of rows holding a given key never decreases, never
exceeds one once it was at most one (so two batches carrying the same
external id leave exactly one persisted row), and an item whose external id
is already persisted is never counted as saved — its uniqueness violation
is swallowed and the loop goes on. -/
theorem sync_account_dedup (db : DB) (acc : Account) (settings : Settings)
    (now : String) (searchOk : Bool) (uids : List (Nat × Option Mail)) (e : String) :
    countKey db acc.id e ≤ countKey (sync_account db acc settings now searchOk uids).1 acc.id e
  ∧ countKey (sync_account db acc settings now searchOk uids).1 acc.id e
      ≤ max (countKey db acc.id e) 1
  ∧ (∀ (m : Mail) (saved : Nat), m.messageId = some e → 1 ≤ countKey db acc.id e →
      (processItem acc settings now (db, saved) (some m)).2 = saved) := by
  refine ⟨?_, ?_, fun m saved hm hdup => processItem_dup_not_saved acc settings now db saved m e hm hdup⟩
  · unfold sync_account
    dsimp only
    split
    · exact Nat.le_refl _
    · split
      · exact Nat.le_refl _
      · rw [countKey_upsertWatermark]
        exact (syncLoop_countKey acc settings now _ db 0 _ acc.id e).1
  · unfold sync_account
    dsimp only
    split
    · exact Nat.le_max_left _ _
    · split
      · exact Nat.le_max_left _ _
      · rw [countKey_upsertWatermark]
        exact (syncLoop_countKey acc settings now _ db 0 _ acc.id e).2

/-- Witness for C2: syncing the same external id in two successive batches
leaves exactly one row, and re-processing the duplicate saves nothing. -/
theorem sync_account_dedup_witness :
    countKey (sync_account (sync_account db0 acc1 allOn "t0" true [(3, some normMail)]).1
        acc1 allOn "t1" true [(4, some normMail)]).1 acc1.id "<m1@x>" = 1
  ∧ (processItem acc1 allOn "t1"
        ((sync_account db0 acc1 allOn "t0" true [(3, some normMail)]).1, 0) (some normMail)).2 = 0 := by
  have h := sync_account_dedup (sync_account db0 acc1 allOn "t0" true [(3, some normMail)]).1
      acc1 allOn "t1" true [(4, some normMail)] "<m1@x>"
  have hb : countKey (sync_account db0 acc1 allOn "t0" true [(3, some normMail)]).1 acc1.id "<m1@x>" = 1 := by
    set_option maxRecDepth 4000 in decide
  constructor
  · have h1 := h.1
    have h2 := h.2.1
    rw [hb] at h1 h2
    omega
  · exact h.2.2 normMail 0 rfl (by rw [hb])

/-! Claim C5: SMTP security negotiation. -/

theorem tryMethods_nil (attempt : Strategy → SendOutcome) (last : Option String) :
    tryMethods attempt [] last = ([], .aggregatedError last) := rfl

theorem smtp_send_auto (acc : Account) (attempt : Strategy → SendOutcome)
    (hsec : smtpSecurityNorm acc = "auto") :
    smtp_send_with_security acc attempt = tryMethods attempt (autoOrder acc.smtp_port) none := by
  unfold smtp_send_with_security
  dsimp only
  rw [hsec]
  rw [if_neg (by decide), if_neg (by decide), if_neg (by decide)]

theorem smtp_send_forced (acc : Account) (attempt : Strategy → SendOutcome) :
    (smtpSecurityNorm acc = "ssl" → smtp_send_with_security acc attempt = runForced attempt .ssl)
  ∧ (smtpSecurityNorm acc = "starttls" → smtp_send_with_security acc attempt = runForced attempt .starttls)
  ∧ (smtpSecurityNorm acc = "plain" → smtp_send_with_security acc attempt = runForced attempt .plain) := by
  unfold smtp_send_with_security
  dsimp only
  refine ⟨?_, ?_, ?_⟩ <;> intro h <;> rw [h]
  · rw [if_pos rfl]
  · rw [if_neg (by decide), if_pos rfl]
  · rw [if_neg (by decide), if_neg (by decide), if_pos rfl]

/-- Claim C5: with security mode `auto` the dispatcher attempts strategies
in the exact order implicit-TLS, STARTTLS, plain when the port is 465 and
STARTTLS, implicit-TLS, plain otherwise, returning on the first success;
only transport-class errors (`ssl.SSLError`/`smtplib.SMTPException`/
`OSError`) fall through, any other error propagates at once, and when every
strategy fails the aggregated error carries the last attempt's cause.  The
forced modes `ssl`, `starttls`, `plain` run exactly their one strategy and
propagate its failure directly. -/
theorem smtp_security_policy (acc : Account) (attempt : Strategy → SendOutcome) :
    (∀ a b c, (if acc.smtp_port = 465 then [Strategy.ssl, Strategy.starttls, Strategy.plain]
               else [Strategy.starttls, Strategy.ssl, Strategy.plain]) = [a, b, c] →
      smtpSecurityNorm acc = "auto" →
        ((attempt a = .ok → smtp_send_with_security acc attempt = ([a], .success))
       ∧ (∀ e, attempt a = .transportErr e → attempt b = .ok →
            smtp_send_with_security acc attempt = ([a, b], .success))
       ∧ (∀ e f, attempt a = .transportErr e → attempt b = .transportErr f → attempt c = .ok →
            smtp_send_with_security acc attempt = ([a, b, c], .success))
       ∧ (∀ e f g, attempt a = .transportErr e → attempt b = .transportErr f →
            attempt c = .transportErr g →
            smtp_send_with_security acc attempt = ([a, b, c], .aggregatedError (some g)))
       ∧ (∀ e, attempt a = .otherErr e →
            smtp_send_with_security acc attempt = ([a], .propagatedOther e))
       ∧ (∀ e f, attempt a = .transportErr e → attempt b = .otherErr f →
            smtp_send_with_security acc attempt = ([a, b], .propagatedOther f))
       ∧ (∀ e f g, attempt a = .transportErr e → attempt b = .transportErr f →
            attempt c = .otherErr g →
            smtp_send_with_security acc attempt = ([a, b, c], .propagatedOther g))))
  ∧ (∀ s str, (s, str) ∈ [("ssl", Strategy.ssl), ("starttls", Strategy.starttls),
        ("plain", Strategy.plain)] →
      smtpSecurityNorm acc = s →
        ((attempt str = .ok → smtp_send_with_security acc attempt = ([str], .success))
       ∧ (∀ e, attempt str = .transportErr e →
            smtp_send_with_security acc attempt = ([str], .propagatedTransport e))
       ∧ (∀ e, attempt str = .otherErr e →
            smtp_send_with_security acc attempt = ([str], .propagatedOther e)))) := by
  constructor
  · intro a b c hab hsec
    have hauto : smtp_send_with_security acc attempt = tryMethods attempt [a, b, c] none := by
      rw [smtp_send_auto acc attempt hsec]
      unfold autoOrder
      rw [hab]
    refine ⟨?_, ?_, ?_, ?_, ?_, ?_, ?_⟩
    · intro h1
      rw [hauto]
      simp [tryMethods, h1]
    · intro e h1 h2
      rw [hauto]
      simp [tryMethods, h1, h2]
    · intro e f h1 h2 h3
      rw [hauto]
      simp [tryMethods, h1, h2, h3]
    · intro e f g h1 h2 h3
      rw [hauto]
      simp [tryMethods, h1, h2, h3]
    · intro e h1
      rw [hauto]
      simp [tryMethods, h1]
    · intro e f h1 h2
      rw [hauto]
      simp [tryMethods, h1, h2]
    · intro e f g h1 h2 h3
      rw [hauto]
      simp [tryMethods, h1, h2, h3]
  · intro s str hmem hsec
    have hforced := smtp_send_forced acc attempt
    simp only [List.mem_cons, List.not_mem_nil, or_false, Prod.mk.injEq] at hmem
    have hrun : smtp_send_with_security acc attempt = runForced attempt str := by
      rcases hmem with ⟨hs, hstr⟩ | ⟨hs, hstr⟩ | ⟨hs, hstr⟩ <;> subst hs <;> subst hstr
      · exact hforced.1 hsec
      · exact hforced.2.1 hsec
      · exact hforced.2.2 hsec
    refine ⟨?_, ?_, ?_⟩
    · intro h1
      rw [hrun]
      unfold runForced
      rw [h1]
    · intro e h1
      rw [hrun]
      unfold runForced
      rw [h1]
    · intro e h1
      rw [hrun]
      unfold runForced
      rw [h1]

/-- A strategy oracle where implicit TLS fails with a handshake error and
STARTTLS succeeds. -/
def attTls : Strategy → SendOutcome
  | .ssl => .transportErr "tls handshake"
  | .starttls => .ok
  | .plain => .transportErr "plain refused"

/-- Witness for C5: on port 465 in `auto` mode, a TLS failure falls through
to STARTTLS, which succeeds. -/
theorem smtp_security_policy_witness :
    smtp_send_with_security acc1 attTls = ([Strategy.ssl, Strategy.starttls], SendResult.success) :=
  ((smtp_security_policy acc1 attTls).1 Strategy.ssl Strategy.starttls Strategy.plain
      (by decide) (by decide)).2.1 "tls handshake" rfl rfl

/-! Claim C6: send atomicity. -/

theorem upsert_contact_nextMsgId (db : DB) (aid : Nat) (email : String) (dn : Option String) :
    (upsert_contact db aid email dn).nextMsgId = db.nextMsgId := by
  unfold upsert_contact
  cases dn with
  | none => dsimp only; split <;> rfl
  | some n => dsimp only; split <;> split <;> rfl

/-- Store well-formedness maintained by SQLite's AUTOINCREMENT: every
stored message id is below the next row id. -/
def idsBounded (db : DB) : Prop :=
  ∀ r ∈ db.messages, r.id < db.nextMsgId

theorem list_map_id_on (l : List Msg) (f : Msg → Msg) (hf : ∀ r ∈ l, f r = r) :
    l.map f = l := by
  have h : l.map f = l.map id := List.map_congr_left hf
  rw [h, List.map_id]

/-- Claim C6: a send either fails with the transport error and the store is
completely untouched (in particular no message row is persisted), or it
fully succeeds: exactly one new outbound row is appended, carrying delivery
status `sent` and read flag true, and the returned record describes that
row. -/
theorem send_message_atomic (db : DB) (acc : Account) (to_email0 body : String)
    (is_html : Bool) (attachments : List AttIn) (reply_to : Option String)
    (now : String) (attempt : Strategy → SendOutcome) (hids : idsBounded db) :
    (∀ f, (send_message db acc to_email0 body is_html attachments reply_to now attempt).2 = .error f →
        (send_message db acc to_email0 body is_html attachments reply_to now attempt).1 = db)
  ∧ (∀ rec, (send_message db acc to_email0 body is_html attachments reply_to now attempt).2 = .ok rec →
        ∃ row, (send_message db acc to_email0 body is_html attachments reply_to now attempt).1.messages
            = db.messages ++ [row]
          ∧ row.direction = "outbound" ∧ row.delivery_status = "sent" ∧ row.is_read = true
          ∧ row.id = rec.id ∧ rec.delivery_status = "sent"
          ∧ row.attachments_json = some rec.attachments
          ∧ row.body = rec.body ∧ row.body_html = rec.body_html ∧ row.sent_at = now) := by
  unfold send_message
  dsimp only
  split
  · rename_i hE
    constructor
    · intro f hf
      exact absurd hf (by simp)
    · intro rec hrec
      have hrec2 := Except.ok.inj hrec
      subst hrec2
      simp only [upsert_contact_messages, upsert_contact_nextMsgId, List.map_append]
      refine ⟨{ id := db.nextMsgId, account_id := acc.id,
                contact_email := pyStrip (pyLower to_email0), direction := "outbound",
                subject := "Chat-Nachricht",
                body := if is_html then pyStrip (String.mk (stripTagsList body.data)) else body,
                body_html := if is_html then some body else none, sent_at := now,
                external_message_id := none, created_at := now,
                attachments_json := some (safeAttLoop attachments),
                in_reply_to_message_id := reply_to, delivery_status := "sent",
                is_read := true, read_at := none },
              ?_, rfl, rfl, rfl, rfl, trivial, rfl, rfl, rfl, rfl⟩
      have hold : db.messages.map (fun r =>
          if r.id = db.nextMsgId then
            { r with attachments_json := some (safeAttLoop attachments),
                     in_reply_to_message_id := reply_to,
                     delivery_status := "sent", is_read := true }
          else r) = db.messages := by
        apply list_map_id_on
        intro r hr
        rw [if_neg]
        exact Nat.ne_of_lt (hids r hr)
      rw [hold]
      simp only [List.map_cons, List.map_nil]
      split
      · rfl
      · rename_i hne
        exact absurd (by trivial) hne
  · rename_i r hE
    constructor
    · intro f _
      rfl
    · intro rec hrec
      exact absurd hrec (by simp)

/-- Witness for C6: both branches at concrete inputs — a failed negotiation
leaves the empty store untouched, and a successful HTML send appends one
outbound `sent`, read row described by the returned record. -/
theorem send_message_atomic_witness :
    (send_message db0 acc1 "bob@example.com" "x" false [] none "t1"
        (fun _ => SendOutcome.transportErr "down")).1 = db0
  ∧ ∃ row, (send_message db0 acc1 "Bob@Example.com " "<b>Hi</b>" true [] none "t1" attTls).1.messages
        = db0.messages ++ [row]
      ∧ row.direction = "outbound" ∧ row.delivery_status = "sent" ∧ row.is_read = true := by
  constructor
  · exact (send_message_atomic db0 acc1 "bob@example.com" "x" false [] none "t1"
        (fun _ => SendOutcome.transportErr "down") (by intro r hr; simp [db0] at hr)).1
        (SendResult.aggregatedError (some "down")) rfl
  · obtain ⟨row, h1, h2, h3, h4, _⟩ := (send_message_atomic db0 acc1 "Bob@Example.com " "<b>Hi</b>"
        true [] none "t1" attTls (by intro r hr; simp [db0] at hr)).2
        { id := 1, direction := "outbound", body := "Hi", body_html := some "<b>Hi</b>",
          sent_at := "t1", delivery_status := "sent", attachments := [],
          external_message_id := none } rfl
    exact ⟨row, h1, h2, h3, h4⟩

/-! Claim C10: skip of empty and self senders. -/

theorem maybe_receipt_false (db : DB) (aid : Nat) (m : Mail) (now : String)
    (h : isMdn m = false) :
    maybe_process_read_receipt db aid m now = (db, false) := by
  unfold maybe_process_read_receipt
  rw [if_neg (by simp [h])]

/-- Claim C10: an inbound item that is not a receipt and whose parsed From
address is empty or equals the account's own address (case-insensitively)
is skipped entirely: no message row is created, no contact is created, the
store and the saved count are untouched — independent of the noise filters
or the item's content. -/
theorem self_or_empty_sender_skipped (db : DB) (acc : Account) (settings : Settings)
    (now : String) (m : Mail) (saved : Nat)
    (hmdn : isMdn m = false)
    (hsender : (parse_from_header (m.fromHdr.getD "") m.fromParsed).1 = ""
             ∨ (parse_from_header (m.fromHdr.getD "") m.fromParsed).1 = pyLower acc.email) :
    processItem acc settings now (db, saved) (some m) = (db, saved) := by
  unfold processItem
  dsimp only
  rw [maybe_receipt_false db acc.id m now hmdn]
  dsimp only
  rw [if_neg (by simp)]
  rw [if_pos hsender]

/-- A mail whose From address is the account's own address in different
capitalisation. -/
def selfMail : Mail :=
  { noMail with fromHdr := some "ME@Example.com", fromParsed := [("", "ME@Example.com")] }

/-- Witness for C10: a self-addressed item leaves the empty store and the
saved count untouched. -/
theorem self_or_empty_sender_skipped_witness :
    processItem acc1 allOn "t" (db0, 0) (some selfMail) = (db0, 0) :=
  self_or_empty_sender_skipped db0 acc1 allOn "t" selfMail 0 (by decide) (Or.inr (by decide))

/-! Claim C7: the first-wins body extraction policy. -/

/-- The first non-attachment `text/plain` part with non-empty decoded
payload, as the code actually selects it. -/
def plainNE (p : Part) : Bool :=
  !(strContains (pyLower p.dispo) "attachment") &&
  (p.ctype == "text/plain") && !(decode_payload p == "")

/-- The first non-attachment HTML-family part with non-empty decoded
payload, as the code actually selects it. -/
def htmlNE (p : Part) : Bool :=
  !(strContains (pyLower p.dispo) "attachment") &&
  ((p.ctype == "text/html") || (p.ctype == "application/xhtml+xml")) &&
  !(decode_payload p == "")

/-- The decoded payload of the first non-empty-decoding plain candidate. -/
def firstPlainNonempty (m : Mail) : Option String :=
  (m.parts.find? plainNE).map decode_payload

/-- The decoded payload of the first non-empty-decoding HTML candidate. -/
def firstHtmlNonempty (m : Mail) : Option String :=
  (m.parts.find? htmlNE).map decode_payload

/-- The text body exactly as claim C7 words it: the decoded payload of the
first `text/plain` non-attachment part encountered in walk order,
regardless of that part's content.  Stated from the claim for comparison
with `extract_bodies`. -/
def firstPlainDecodeSpec (m : Mail) : Option String :=
  (m.parts.find? (fun p =>
      !(strContains (pyLower p.dispo) "attachment") && (p.ctype == "text/plain"))).map
    decode_payload

/-- A multipart mail whose first plain part decodes empty while the second
decodes to `"x"`. -/
def cexMail : Mail :=
  { noMail with
    multipart := true
    selfPart := { ctype := "multipart/alternative", dispo := "", filename := none, decoded := "", bytes := [] }
    parts := [ { ctype := "multipart/alternative", dispo := "", filename := none, decoded := "", bytes := [] },
               { ctype := "text/plain", dispo := "", filename := none, decoded := "", bytes := [] },
               { ctype := "text/plain", dispo := "", filename := none, decoded := "x", bytes := [120] } ] }

/-- Counterexample to C7 as stated: in `cexMail` the first non-attachment
`text/plain` part decodes to the empty string, yet extraction returns the
later part's `"x"` — the earlier part's content does matter. -/
theorem extract_bodies_first_wins_cex :
    cexMail.multipart = true
  ∧ firstPlainDecodeSpec cexMail = some ""
  ∧ (extract_bodies cexMail false).1 = "x"
  ∧ ¬ some ((extract_bodies cexMail false).1) = firstPlainDecodeSpec cexMail := by
  decide

theorem bodiesLoop_text_frozen : ∀ (ps : List Part) (t : String) (h : Option String),
    ¬ t = "" → (bodiesLoop t h ps).1 = t := by
  intro ps
  induction ps with
  | nil => intro t h ht; rfl
  | cons p rest ih =>
    intro t h ht
    unfold bodiesLoop
    split
    · exact ih t h ht
    · split
      · rename_i hcond
        exact absurd hcond.2 ht
      · split
        · exact ih t _ ht
        · exact ih t h ht

theorem bodiesLoop_html_frozen : ∀ (ps : List Part) (t : String) (h : Option String),
    optTruthy h = true → (bodiesLoop t h ps).2 = h := by
  intro ps
  induction ps with
  | nil => intro t h ht; rfl
  | cons p rest ih =>
    intro t h ht
    unfold bodiesLoop
    split
    · exact ih t h ht
    · split
      · exact ih _ h ht
      · split
        · rename_i hcond
          rw [ht] at hcond
          exact absurd rfl hcond.2
        · exact ih t h ht

theorem bodiesLoop_text_first : ∀ (ps : List Part) (h : Option String),
    (bodiesLoop "" h ps).1 = ((ps.find? plainNE).map decode_payload).getD "" := by
  intro ps
  induction ps with
  | nil => intro h; rfl
  | cons p rest ih =>
    intro h
    unfold bodiesLoop
    split
    · rename_i hatt
      have hpred : plainNE p = false := by
        simp [plainNE, hatt]
      rw [List.find?]
      simp only [hpred]
      exact ih h
    · rename_i hatt
      rw [Bool.not_eq_true] at hatt
      split
      · rename_i hcond
        by_cases hdec : decode_payload p = ""
        · have hpred : plainNE p = false := by
            simp [plainNE, hdec]
          rw [List.find?]
          simp only [hpred]
          rw [hdec]
          exact ih h
        · have hpred : plainNE p = true := by
            simp [plainNE, hatt, hcond.1, hdec]
          rw [List.find?]
          simp only [hpred]
          simp only [Option.map_some', Option.getD_some]
          exact bodiesLoop_text_frozen rest (decode_payload p) h hdec
      · rename_i hplain
        have hct : ¬ p.ctype = "text/plain" := fun hc => hplain ⟨hc, rfl⟩
        have hpred : plainNE p = false := by
          simp [plainNE, hct]
        rw [List.find?]
        simp only [hpred]
        split
        · exact ih _
        · exact ih h

theorem bodiesLoop_html_first : ∀ (ps : List Part) (t : String) (h : Option String),
    optTruthy h = false → ∀ p0, ps.find? htmlNE = some p0 →
    (bodiesLoop t h ps).2 = some (decode_payload p0) := by
  intro ps
  induction ps with
  | nil => intro t h ht p0 hp0; simp [List.find?] at hp0
  | cons p rest ih =>
    intro t h ht p0 hp0
    unfold bodiesLoop
    split
    · rename_i hatt
      have hpred : htmlNE p = false := by
        simp [htmlNE, hatt]
      rw [List.find?] at hp0
      simp only [hpred] at hp0
      exact ih t h ht p0 hp0
    · rename_i hatt
      rw [Bool.not_eq_true] at hatt
      split
      · rename_i hcond
        have hpred : htmlNE p = false := by
          simp [htmlNE, hcond.1]
        rw [List.find?] at hp0
        simp only [hpred] at hp0
        exact ih _ h ht p0 hp0
      · rename_i hplain
        split
        · rename_i hcond
          by_cases hdec : decode_payload p = ""
          · have hpred : htmlNE p = false := by
              simp [htmlNE, hdec]
            rw [List.find?] at hp0
            simp only [hpred] at hp0
            rw [hdec]
            exact ih t (some "") rfl p0 hp0
          · have hpred : htmlNE p = true := by
              rcases hcond.1 with hc | hc <;> simp [htmlNE, hatt, hc, hdec]
            rw [List.find?] at hp0
            simp only [hpred] at hp0
            have hp0e : p0 = p := (Option.some.inj hp0).symm
            subst hp0e
            apply bodiesLoop_html_frozen
            simp [optTruthy, hdec]
        · rename_i hhtml
          have hct : ¬ (p.ctype = "text/html" ∨ p.ctype = "application/xhtml+xml") := by
            intro hc
            refine hhtml ⟨hc, ?_⟩
            rw [ht]
            simp
          have hpred : htmlNE p = false := by
            push_neg at hct
            simp [htmlNE, hct.1, hct.2]
          rw [List.find?] at hp0
          simp only [hpred] at hp0
          exact ih t h ht p0 hp0

/-- Claim C7 amended: among non-attachment parts in walk order, extraction
takes the first `text/plain` part whose decoded payload is non-empty as the
text body and the first HTML-family part whose decoded payload is non-empty
as the HTML body (matching parts with empty decoded payload are passed
over; once a non-empty one is taken, later matching parts are ignored);
when no plain part yields text but a non-empty HTML part exists, the text
body is that HTML with tags stripped and whitespace collapsed. -/
theorem extract_bodies_multipart (m : Mail) (hm : m.multipart = true) (strip : Bool) :
    extract_bodies m strip =
      (let tb := bodiesLoop "" none m.parts
       let text1 := if tb.1 = "" ∧ optTruthy tb.2 then htmlToText (tb.2.getD "") else tb.1
       let text2 := if strip ∧ ¬ text1 = "" then strip_quoted_text text1 else text1
       (text2, tb.2)) := by
  unfold extract_bodies
  rw [hm]
  rfl

theorem extract_bodies_first_nonempty (m : Mail) (hm : m.multipart = true) :
    (∀ s, firstPlainNonempty m = some s → (extract_bodies m false).1 = s)
  ∧ (∀ s, firstHtmlNonempty m = some s → (extract_bodies m false).2 = some s)
  ∧ (firstPlainNonempty m = none → ∀ s, firstHtmlNonempty m = some s →
      (extract_bodies m false).1 = htmlToText s) := by
  refine ⟨?_, ?_, ?_⟩
  · intro s hs
    unfold firstPlainNonempty at hs
    obtain ⟨p, hp, hdp⟩ : ∃ p, m.parts.find? plainNE = some p ∧ decode_payload p = s := by
      cases hfind : m.parts.find? plainNE with
      | none => rw [hfind] at hs; simp at hs
      | some p => rw [hfind] at hs; exact ⟨p, rfl, by simpa using hs⟩
    have hne : ¬ s = "" := by
      intro hs0
      have hP := List.find?_some hp
      rw [← hdp] at hs0
      simp [plainNE, hs0] at hP
    rw [extract_bodies_multipart m hm false]
    dsimp only
    have htext : (bodiesLoop "" none m.parts).1 = s := by
      rw [bodiesLoop_text_first m.parts none, hp]
      simp [hdp]
    have htext1 : (if (bodiesLoop "" none m.parts).1 = "" ∧ optTruthy (bodiesLoop "" none m.parts).2
        then htmlToText ((bodiesLoop "" none m.parts).2.getD "")
        else (bodiesLoop "" none m.parts).1) = s := by
      rw [htext]
      rw [if_neg (fun hc => hne hc.1)]
    rw [htext1]
    rw [if_neg (by simp)]
  · intro s hs
    unfold firstHtmlNonempty at hs
    obtain ⟨p, hp, hdp⟩ : ∃ p, m.parts.find? htmlNE = some p ∧ decode_payload p = s := by
      cases hfind : m.parts.find? htmlNE with
      | none => rw [hfind] at hs; simp at hs
      | some p => rw [hfind] at hs; exact ⟨p, rfl, by simpa using hs⟩
    rw [extract_bodies_multipart m hm false]
    dsimp only
    rw [bodiesLoop_html_first m.parts "" none rfl p hp, hdp]
  · intro hnone s hs
    unfold firstPlainNonempty at hnone
    unfold firstHtmlNonempty at hs
    obtain ⟨p, hp, hdp⟩ : ∃ p, m.parts.find? htmlNE = some p ∧ decode_payload p = s := by
      cases hfind : m.parts.find? htmlNE with
      | none => rw [hfind] at hs; simp at hs
      | some p => rw [hfind] at hs; exact ⟨p, rfl, by simpa using hs⟩
    have hne : ¬ s = "" := by
      intro hs0
      have hP := List.find?_some hp
      rw [← hdp] at hs0
      simp [htmlNE, hs0] at hP
    rw [extract_bodies_multipart m hm false]
    dsimp only
    have htext : (bodiesLoop "" none m.parts).1 = "" := by
      rw [bodiesLoop_text_first m.parts none]
      cases hfind : m.parts.find? plainNE with
      | none => rfl
      | some q => rw [hfind] at hnone; simp at hnone
    have hhtml : (bodiesLoop "" none m.parts).2 = some s := by
      rw [bodiesLoop_html_first m.parts "" none rfl p hp, hdp]
    have htext1 : (if (bodiesLoop "" none m.parts).1 = "" ∧ optTruthy (bodiesLoop "" none m.parts).2
        then htmlToText ((bodiesLoop "" none m.parts).2.getD "")
        else (bodiesLoop "" none m.parts).1) = htmlToText s := by
      rw [htext, hhtml]
      rw [if_pos ⟨rfl, by simp [optTruthy, hne]⟩]
      rfl
    rw [htext1]
    rw [if_neg (by simp)]

/-- Witness for the amended C7: on `cexMail` the first non-empty plain part
wins. -/
theorem extract_bodies_first_nonempty_witness :
    (extract_bodies cexMail false).1 = "x" :=
  (extract_bodies_first_nonempty cexMail (by decide)).1 "x" (by decide)

/-! Claim C8: quote stripping. -/

/-- Counterexample to C8 as stated: no line of the input matches any cut
pattern, yet the result differs from the input — even without a match the
function rejoins the lines and strips surrounding whitespace. -/
theorem strip_quoted_unmodified_cex :
    ((pySplitlines "hello\n").all (fun l => !(cutLineMatch l))) = true
  ∧ strip_quoted_text "hello\n" = "hello"
  ∧ ¬ strip_quoted_text "hello\n" = "hello\n" := by
  decide

theorem takeUntilMatch_eq_take : ∀ (ls : List String) (i : Nat) (l : String),
    ls[i]? = some l → cutLineMatch l = true →
    (∀ j lj, j < i → ls[j]? = some lj → cutLineMatch lj = false) →
    takeUntilMatch ls = ls.take i := by
  intro ls
  induction ls with
  | nil => intro i l h _ _; simp at h
  | cons a rest ih =>
    intro i l h hmatch hbefore
    cases i with
    | zero =>
      have ha : a = l := by simpa using h
      unfold takeUntilMatch
      rw [if_pos (show cutLineMatch a = true from ha ▸ hmatch)]
      rfl
    | succ i2 =>
      have ha : cutLineMatch a = false := hbefore 0 a (Nat.succ_pos _) (by simp)
      unfold takeUntilMatch
      rw [if_neg (by simp [ha])]
      show a :: takeUntilMatch rest = a :: rest.take i2
      congr 1
      apply ih i2 l (by simpa using h) hmatch
      intro j lj hj hjl
      exact hbefore (j + 1) lj (by omega) (by simpa using hjl)

theorem takeUntilMatch_eq_self : ∀ (ls : List String),
    (∀ l ∈ ls, cutLineMatch l = false) → takeUntilMatch ls = ls := by
  intro ls
  induction ls with
  | nil => intro _; rfl
  | cons a rest ih =>
    intro h
    unfold takeUntilMatch
    rw [if_neg (by simp [h a (by simp)])]
    rw [ih (fun l hl => h l (by simp [hl]))]

/-- Claim C8 amended: quote stripping keeps the lines strictly before the
first line matching a cut pattern and returns them joined with newlines and
stripped of surrounding whitespace; when no line matches, the result is the
same join-and-strip of all lines (the line contents themselves are never
altered).  On the claim's concrete input the result is exactly
`"Thanks!"`. -/
theorem strip_quoted_policy (text : String) :
    (∀ i l, (pySplitlines text)[i]? = some l → cutLineMatch l = true →
        (∀ j lj, j < i → (pySplitlines text)[j]? = some lj → cutLineMatch lj = false) →
        strip_quoted_text text = pyStrip (joinNL ((pySplitlines text).take i)))
  ∧ ((∀ l ∈ pySplitlines text, cutLineMatch l = false) →
        strip_quoted_text text = pyStrip (joinNL (pySplitlines text)))
  ∧ strip_quoted_text "Thanks!\nOn Mon, Jan 1 wrote:\n> old content" = "Thanks!" := by
  refine ⟨?_, ?_, by decide⟩
  · intro i l h hm hb
    unfold strip_quoted_text
    rw [takeUntilMatch_eq_take (pySplitlines text) i l h hm hb]
  · intro h
    unfold strip_quoted_text
    rw [takeUntilMatch_eq_self (pySplitlines text) h]

/-- Witness for the amended C8: the claim's concrete input truncates at the
`On … wrote:` line (index 1). -/
theorem strip_quoted_policy_witness :
    strip_quoted_text "Thanks!\nOn Mon, Jan 1 wrote:\n> old content"
      = pyStrip (joinNL ((pySplitlines "Thanks!\nOn Mon, Jan 1 wrote:\n> old content").take 1)) := by
  apply (strip_quoted_policy "Thanks!\nOn Mon, Jan 1 wrote:\n> old content").1 1
      "On Mon, Jan 1 wrote:" (by decide) (by decide)
  intro j lj hj hjl
  have hj0 : j = 0 := by omega
  subst hj0
  rw [show (pySplitlines "Thanks!\nOn Mon, Jan 1 wrote:\n> old content")[0]? = some "Thanks!"
      from by decide] at hjl
  have hlj := Option.some.inj hjl
  rw [← hlj]
  decide

/-! Claim C9: the content invariant of persisted inbound messages. -/

/-- An inbound item carrying only a PDF attachment: empty text, no HTML,
and no `Message-ID` header. -/
def bugMail : Mail :=
  { noMail with
    multipart := true
    selfPart := { ctype := "multipart/mixed", dispo := "", filename := none, decoded := "", bytes := [] }
    parts := [ { ctype := "multipart/mixed", dispo := "", filename := none, decoded := "", bytes := [] },
               { ctype := "application/pdf", dispo := "attachment; filename=report.pdf",
                 filename := some "report.pdf", decoded := "", bytes := [37, 80, 68, 70] } ]
    subject := some "Projektdatei"
    fromHdr := some "Bob <bob@example.com>"
    fromParsed := [("Bob", "bob@example.com")] }

/-- Claim C9 fails on the code: syncing `bugMail` — an attachment-only item
whose extraction yields one manifest entry but which carries no Message-ID
header — persists a message row, yet the follow-up UPDATE keyed on
`external_message_id = NULL` matches no row, so the persisted inbound row
keeps `attachments_json` NULL.  The store then holds an inbound Message
with empty body, no HTML body, and no attachment manifest entry, violating
the stated invariant (and silently losing the manifest the code computed in
order to store it). -/
theorem sync_account_contentless_row_bug :
    extract_attachments bugMail
      = [{ name := "report.pdf", content_type := "application/pdf", size := 4 }]
  ∧ (sync_account db0 acc1 allOn "t0" true [(7, some bugMail)]).2 = 1
  ∧ ((sync_account db0 acc1 allOn "t0" true [(7, some bugMail)]).1.messages.map
        (fun r => (r.direction, r.body, r.body_html, r.attachments_json)))
      = [("inbound", "", none, none)] := by
  set_option maxRecDepth 4000 in decide

end MailChat
